import Mathlib

set_option autoImplicit false

/-!
Shallow embedding of the FUSE mount file/read-handle layer
(`cmd/mount/file.go`, `cmd/mount/read.go`).

Machine integers (`int64` offsets and sizes) are modelled as `Int`;
buffer sizes as `Nat`.  Byte values, digest values, error payloads and
remote names are abstract `Nat` tokens.  The underlying remote stream is
modelled by its position (`streamPos`) plus a per-attempt fault
prescription (`IterFault`) injecting the transient errors the retry loop
has to survive.  An `Obs` record counts the externally observable events
(stream reopens, underlying reads) the spec talks about.
-/

/-- Errors of the mount layer.  Each constructor corresponds to one
distinct Go error value or error family produced in `read.go`/`file.go`:
`errClosedFileHandle`, `io.EOF`, `io.ErrUnexpectedEOF`, generic
transport errors, backend hash-query errors, the
"corrupted on transfer" error (naming the algorithm and both digests),
`fuse.ENOENT`, the "writer failed" error, the
"can't open for read and write simultaneously" error, the unknown-flags
error, and the two `errors.Wrap` labels used by `File.Open`. -/
inductive MErr where
  | closedFileHandle
  | eof
  | unexpectedEOF
  | ioErr (e : Nat)
  | hashErr (e : Nat)
  | corrupted (hashType dstSum srcSum : Nat)
  | enoent
  | writerFailed
  | cantOpenRWSimultaneously
  | cantFigureOutFlags
  | openForRead (e : MErr)
  | openForWrite (e : MErr)
  deriving DecidableEq

/-- Effective configuration values consumed by this core:
`fs.Config.LowLevelRetries`, the `--no-checksum` and `--no-seek` flags,
and an abstract digest function standing for the multi-hasher: the
digest of a byte sequence under a given hash algorithm. -/
structure Config where
  lowLevelRetries : Nat
  noChecksum : Bool
  noSeek : Bool
  digest : Nat → List Nat → Nat

/-- The remote `fs.Object` backing a file: its size, its content (byte
at each offset), whether streams opened on it support direct
repositioning (`io.Seeker`), its remote name, the hash algorithms its
backend supports, and the backend-reported digest per algorithm
(which may fail). -/
structure Obj where
  size : Int
  content : Int → Nat
  seekable : Bool
  remote : Nat
  hashTypes : List Nat
  srcHash : Nat → Except Nat Nat

/-- State of a `ReadFileHandle` (`read.go`): the `closed` flag, the
logical `offset`, the `readCalled` flag, the optional multi-hasher
state (the bytes accumulated so far; `none` when checksumming is
disabled or the accumulator was discarded), and the position of the
underlying stream (the model of `fh.r`). -/
structure ReadFileHandle where
  closed : Bool
  offset : Int
  readCalled : Bool
  hash : Option (List Nat)
  streamPos : Int
  deriving DecidableEq

/-- Observable event counters: how many times the object was reopened
(`o.Open` calls made by `seek`), and how many times the underlying
stream was read from (`io.ReadFull` invocations with a non-empty
buffer). -/
structure Obs where
  reopens : Nat
  streamReads : Nat
  deriving DecidableEq

/-- Transient-fault prescription for one iteration of the read loop:
an error for a direct `io.Seeker` seek, an error for the reopening
`o.Open` call, and an error for `io.ReadFull` (with the number of bytes
delivered before failing). -/
structure IterFault where
  directSeekErr : Option Nat
  reopenErr : Option Nat
  readErr : Option (Nat × Nat)
  deriving DecidableEq

/-- A fault-free iteration: every underlying operation succeeds. -/
def cleanFault : IterFault := ⟨none, none, none⟩

/-- An iteration whose `io.ReadFull` fails with transient error `e`
after delivering no bytes. -/
def failFault (e : Nat) : IterFault := ⟨none, none, some (e, 0)⟩

/-- Embedding of `ReadFileHandle.seek` (read.go:61-91).  Discards the
hash accumulator first (`fh.hash = nil`), then either repositions the
stream directly (when it is an `io.Seeker` and `reopen` was not forced)
or closes it and reopens the object at the target offset (counting one
reopen, whether or not the open succeeds); `offset` is updated only on
success.  Returns the handle, the observation counters and an optional
error. -/
def ReadFileHandle.seek (o : Obj) (offset : Int) (reopen : Bool) (flt : IterFault)
    (fh : ReadFileHandle) (obs : Obs) : ReadFileHandle × Obs × Option MErr :=
  let fh1 : ReadFileHandle := { fh with hash := none }
  if !reopen && o.seekable then
    match flt.directSeekErr with
    | some e => (fh1, obs, some (.ioErr e))
    | none => ({ fh1 with streamPos := offset, offset := offset }, obs, none)
  else
    let obs1 : Obs := { obs with reopens := obs.reopens + 1 }
    match flt.reopenErr with
    | some e => (fh1, obs1, some (.ioErr e))
    | none => ({ fh1 with streamPos := offset, offset := offset }, obs1, none)

/-- Semantics of `io.ReadFull(fh.r, buf)` on a stream positioned at
`pos` over object `o`, with a possible injected transient failure:
an empty buffer reads nothing and succeeds; an injected fault delivers
its prescribed byte count (capped by the buffer) and its error;
otherwise the buffer is filled if enough bytes remain, and reaching the
end early yields `io.EOF` (nothing read) or `io.ErrUnexpectedEOF`
(short read).  Returns the byte count delivered and an optional
error. -/
def readFullN (o : Obj) (pos : Int) (bufSize : Nat) (flt : IterFault) : Nat × Option MErr :=
  if bufSize = 0 then (0, none)
  else
    match flt.readErr with
    | some (e, k) => (min k bufSize, some (.ioErr e))
    | none =>
      let avail : Nat := (o.size - pos).toNat
      if bufSize ≤ avail then (bufSize, none)
      else if avail = 0 then (0, some .eof)
      else (avail, some .unexpectedEOF)

/-- The `n` bytes of `o`'s content starting at position `pos`. -/
def bytesAt (o : Obj) (pos : Int) (n : Nat) : List Nat :=
  (List.range n).map fun (i : Nat) => o.content (pos + Int.ofNat i)

/-- Result of one iteration of the read loop: either the loop breaks
or returns (`done`, carrying the final handle, counters and result),
or the iteration failed and the loop would retry (`retry`, carrying
the error observed). -/
inductive StepRes where
  | done (fh : ReadFileHandle) (obs : Obs) (res : Except MErr (List Nat))
  | retry (fh : ReadFileHandle) (obs : Obs) (e : MErr)

/-- The post-loop success path of `ReadFileHandle.Read` (read.go:154-164):
`resp.Data = buf[:n]`, `fh.offset = newOffset`, and the delivered bytes
are fed to the hash accumumulator when it is active. -/
def finishOK (fh : ReadFileHandle) (newOffset : Int) (data : List Nat) : ReadFileHandle :=
  { fh with offset := newOffset, hash := fh.hash.map (· ++ data) }

/-- The body of one read attempt after a successful (or skipped) seek
(read.go:123-141): set `readCalled` when the request is non-empty, run
`io.ReadFull`, and break successfully on a full buffer or on an
EOF-style error that lands exactly at the object's end; any other error
is handed to the retry logic. -/
def readBody (o : Obj) (reqSize : Nat) (flt : IterFault)
    (fh : ReadFileHandle) (obs : Obs) : StepRes :=
  let fh1 := if 0 < reqSize then { fh with readCalled := true } else fh
  let obs1 := if 0 < reqSize then { obs with streamReads := obs.streamReads + 1 } else obs
  match readFullN o fh1.streamPos reqSize flt with
  | (n, none) =>
    .done (finishOK { fh1 with streamPos := fh1.streamPos + (n : Int) }
      (fh1.offset + (n : Int)) (bytesAt o fh1.streamPos n)) obs1
      (.ok (bytesAt o fh1.streamPos n))
  | (n, some e) =>
    if (e = .eof ∨ e = .unexpectedEOF) ∧ fh1.offset + (n : Int) = o.size then
      .done (finishOK { fh1 with streamPos := fh1.streamPos + (n : Int) }
        (fh1.offset + (n : Int)) (bytesAt o fh1.streamPos n)) obs1
        (.ok (bytesAt o fh1.streamPos n))
    else .retry { fh1 with streamPos := fh1.streamPos + (n : Int) } obs1 e

/-- One full iteration of the read loop (read.go:108-142): when a seek
is pending, a request at or beyond the object's size returns an empty
result immediately leaving everything unchanged; otherwise the seek is
performed (its failure goes to the retry logic), then the read body
runs. -/
def readAttempt (o : Obj) (reqOffset : Int) (reqSize : Nat) (flt : IterFault)
    (doSeek doReopen : Bool) (fh : ReadFileHandle) (obs : Obs) : StepRes :=
  if doSeek then
    if o.size ≤ reqOffset then .done fh obs (.ok [])
    else
      match ReadFileHandle.seek o reqOffset doReopen flt fh obs with
      | (fh1, obs1, some e) => .retry fh1 obs1 e
      | (fh1, obs1, none) => readBody o reqSize flt fh1 obs1
  else readBody o reqSize flt fh obs

/-- The retry loop of `ReadFileHandle.Read` (read.go:108-150), with the
remaining retry budget (`fs.Config.LowLevelRetries - retries`) as the
recursion measure: a failed attempt with no budget left breaks with its
error; otherwise the loop retries with `doSeek = doReopen = true`.
`attempt` indexes the fault prescription used by each iteration. -/
def readLoop (o : Obj) (reqOffset : Int) (reqSize : Nat) (faults : Nat → IterFault) :
    Nat → Nat → Bool → Bool → ReadFileHandle → Obs →
    ReadFileHandle × Obs × Except MErr (List Nat)
  | attempt, 0, doSeek, doReopen, fh, obs =>
    match readAttempt o reqOffset reqSize (faults attempt) doSeek doReopen fh obs with
    | .done fh2 obs2 res => (fh2, obs2, res)
    | .retry fh2 obs2 e => (fh2, obs2, .error e)
  | attempt, r + 1, doSeek, doReopen, fh, obs =>
    match readAttempt o reqOffset reqSize (faults attempt) doSeek doReopen fh obs with
    | .done fh2 obs2 res => (fh2, obs2, res)
    | .retry fh2 obs2 _ => readLoop o reqOffset reqSize faults (attempt + 1) r true true fh2 obs2

/-- Embedding of `ReadFileHandle.Read` (read.go:94-167): fails at once
on a closed handle, then runs the retry loop with a pending seek
exactly when the requested offset differs from the handle's offset. -/
def ReadFileHandle.Read (cfg : Config) (o : Obj) (reqOffset : Int) (reqSize : Nat)
    (faults : Nat → IterFault) (fh : ReadFileHandle) (obs : Obs) :
    ReadFileHandle × Obs × Except MErr (List Nat) :=
  if fh.closed then (fh, obs, .error .closedFileHandle)
  else readLoop o reqOffset reqSize faults 0 cfg.lowLevelRetries
    (decide (reqOffset ≠ fh.offset)) false fh obs

/-- The comparison loop of `checkHash` (read.go:195-203) over the list
of supported hash algorithms.  A backend hash-query failure is
surfaced as is; a digest disagreement is the corruption error naming
the algorithm and both digests.  Modelled from the spec: the digest
comparison (`fs.HashEquals`, not among the provided sources) is plain
disagreement of the two digest values. -/
def checkSums (cfg : Config) (o : Obj) (bs : List Nat) : List Nat → Except MErr Unit
  | [] => .ok ()
  | t :: ts =>
    match o.srcHash t with
    | .error e => .error (.hashErr e)
    | .ok srcSum =>
      if cfg.digest t bs ≠ srcSum then .error (.corrupted t (cfg.digest t bs) srcSum)
      else checkSums cfg o bs ts

/-- Embedding of `ReadFileHandle.checkHash` (read.go:190-206): succeeds
without comparing anything when the accumulator is gone, no read ever
happened, or the offset is still short of the object's size; otherwise
compares every supported algorithm's computed digest with the
backend-reported one. -/
def ReadFileHandle.checkHash (cfg : Config) (o : Obj) (fh : ReadFileHandle) :
    Except MErr Unit :=
  match fh.hash with
  | none => .ok ()
  | some bs =>
    if !fh.readCalled || fh.offset < o.size then .ok ()
    else checkSums cfg o bs o.hashTypes

/-- Embedding of the internal `close` (read.go:173-185): fails with the
already-closed error on a closed handle; otherwise marks the handle
closed, runs `checkHash` and surfaces its error; when verification
passes it ends in `return fh.r.Close()`, whose outcome is the injected
`closeErr` (an error, or success when `none`). -/
def ReadFileHandle.close (cfg : Config) (o : Obj) (closeErr : Option Nat)
    (fh : ReadFileHandle) : ReadFileHandle × Except MErr Unit :=
  if fh.closed then (fh, .error .closedFileHandle)
  else
    let fh1 : ReadFileHandle := { fh with closed := true }
    match ReadFileHandle.checkHash cfg o fh1 with
    | .error e => (fh1, .error e)
    | .ok _ =>
      match closeErr with
      | some e => (fh1, .error (.ioErr e))
      | none => (fh1, .ok ())

/-- Embedding of `ReadFileHandle.Flush` (read.go:211-223): runs
`checkHash` and returns its result; it does not consult the `closed`
flag. -/
def ReadFileHandle.Flush (cfg : Config) (o : Obj) (fh : ReadFileHandle) :
    Except MErr Unit :=
  ReadFileHandle.checkHash cfg o fh

/-- Embedding of `ReadFileHandle.Release` (read.go:231-246): on an
already-closed handle there is nothing to do and it returns success;
otherwise it runs the internal `close` (whose stream-close outcome is
the injected `closeErr`). -/
def ReadFileHandle.Release (cfg : Config) (o : Obj) (closeErr : Option Nat)
    (fh : ReadFileHandle) : ReadFileHandle × Except MErr Unit :=
  if fh.closed then (fh, .ok ())
  else ReadFileHandle.close cfg o closeErr fh

/-- Embedding of `newReadFileHandle` (read.go:27-48): opening the
object's stream may fail, aborting the construction; the hash
accumulator is initialized empty exactly when checksumming is enabled
and the multi-hasher construction succeeds (its failure only disables
verification). -/
def newReadFileHandle (cfg : Config) (openErr : Option Nat) (hasherFails : Bool) :
    Except MErr ReadFileHandle :=
  match openErr with
  | some e => .error (.ioErr e)
  | none =>
    .ok { closed := false, offset := 0, readCalled := false,
          hash := if !cfg.noChecksum && !hasherFails then some [] else none,
          streamPos := 0 }

/-- A file node (`file.go`): only the parent-directory identity is
needed here; its time-varying `o`/`writers` fields are modelled by the
poll function below. -/
structure File where
  d : Nat

/-- The poll loop of `waitForValidObject` (file.go:136-148), recursing
on the remaining iteration budget.  `poll i` is the pair
(object reference, writer count) the `i`-th locked inspection of the
node observes; `slept` accumulates the milliseconds slept so far
(100 ms after every unsuccessful inspection). -/
def waitLoop (poll : Nat → Option Obj × Nat) : Nat → Nat → Nat → Except MErr Obj × Nat
  | _, slept, 0 => (.error .enoent, slept)
  | i, slept, fuel + 1 =>
    match poll i with
    | (some x, _) => (.ok x, slept)
    | (none, writers) =>
      if writers = 0 then (.error .writerFailed, slept)
      else waitLoop poll (i + 1) (slept + 100) fuel

/-- Embedding of `File.waitForValidObject` (file.go:135-150): up to 50
inspections of the node, 100 ms apart, returning the object as soon as
one is observed, the writer-failed error as soon as an inspection sees
no object and no writers, and `ENOENT` when the budget is exhausted.
Returns the result together with the total milliseconds slept. -/
def File.waitForValidObject (poll : Nat → Option Obj × Nat) : Except MErr Obj × Nat :=
  waitLoop poll 0 0 50

/-- Open flags as seen by `File.Open`: the access mode taken from the
low two bits of the flag word (0 read-only, 1 write-only, 2
read-write) and the truncate bit. -/
structure OpenFlags where
  accessMode : Nat
  truncate : Bool
  deriving DecidableEq

/-- `OpenFlags.IsReadOnly`. -/
def OpenFlags.IsReadOnly (fl : OpenFlags) : Bool := fl.accessMode == 0

/-- `OpenFlags.IsWriteOnly`. -/
def OpenFlags.IsWriteOnly (fl : OpenFlags) : Bool := fl.accessMode == 1

/-- `OpenFlags.IsReadWrite`. -/
def OpenFlags.IsReadWrite (fl : OpenFlags) : Bool := fl.accessMode == 2

/-- The handle returned by `File.Open`: a read handle, or a write
handle recording the parent directory and the remote name it was
constructed against. -/
inductive Handle where
  | readHandle (fh : ReadFileHandle)
  | writeHandle (d : Nat) (remote : Nat)
  deriving DecidableEq

/-- Modelled from the spec: `newWriteFileHandle` and `newCreateInfo`
live in write.go and dir.go, which are not among the provided sources.
Per the spec, opening for write constructs a WriteHandle against the
node and its parent directory, from the object's remote name. -/
def newWriteFileHandle (f : File) (remote : Nat) : Handle :=
  .writeHandle f.d remote

/-- Embedding of `File.Open` (file.go:156-199): first waits for a valid
object, surfacing that failure as is; then classifies the flags:
read-only constructs a read handle (non-seekable to the caller exactly
when `--no-seek` is configured, failures wrapped as open-for-read);
write-only or read-write-with-truncate constructs a write handle,
always non-seekable; read-write without truncate is rejected; anything
else is an unrecognized mode.  Returns the handle and whether the
response is marked non-seekable. -/
def File.Open (cfg : Config) (f : File) (poll : Nat → Option Obj × Nat)
    (flags : OpenFlags) (openErr : Option Nat) (hasherFails : Bool) :
    Except MErr (Handle × Bool) :=
  match (File.waitForValidObject poll).1 with
  | .error e => .error e
  | .ok o =>
    if flags.IsReadOnly then
      match newReadFileHandle cfg openErr hasherFails with
      | .error e => .error (.openForRead e)
      | .ok fh => .ok (.readHandle fh, cfg.noSeek)
    else if flags.IsWriteOnly || (flags.IsReadWrite && flags.truncate) then
      .ok (newWriteFileHandle f o.remote, true)
    else if flags.IsReadWrite then
      .error .cantOpenRWSimultaneously
    else
      .error .cantFigureOutFlags

/-- The handle component of a step result. -/
def StepRes.fh : StepRes → ReadFileHandle
  | .done fh _ _ => fh
  | .retry fh _ _ => fh

/-- Concrete configuration used by witnesses: 10 low-level retries,
checksumming and seeking enabled, digest constantly 0. -/
def cfgW : Config := ⟨10, false, false, fun _ _ => 0⟩

/-- Concrete configuration with a retry limit of 2. -/
def cfg3W : Config := ⟨2, false, false, fun _ _ => 0⟩

/-- Concrete object: size 4, every byte 7, seekable, remote name 3,
one supported hash algorithm whose backend digest is 5. -/
def objW : Obj := ⟨4, fun _ => 7, true, 3, [0], fun _ => .ok 5⟩

/-- Zeroed observation counters. -/
def obs0W : Obs := ⟨0, 0⟩

/-- A fresh handle on `objW`. -/
def fh0W : ReadFileHandle := ⟨false, 0, false, some [], 0⟩

/-- A handle that has read `objW` to its end, hash discarded. -/
def fh4W : ReadFileHandle := ⟨false, 4, true, none, 4⟩

/-- A handle that has read `objW` to its end and was then closed. -/
def fhClosedW : ReadFileHandle := ⟨true, 4, true, none, 4⟩

/-- A handle that has read `objW` to its end with bytes accumulated. -/
def fhHashW : ReadFileHandle := ⟨false, 4, true, some [1, 2], 4⟩

/-- A concrete file node with parent directory 7. -/
def fileW : File := ⟨7⟩

/-- A poll sequence: no object for two inspections (one writer), then
the object appears. -/
def pollW : Nat → Option Obj × Nat := fun i => if i < 2 then (none, 1) else (some objW, 1)

/-- A poll sequence that never sees an object nor a writer. -/
def pollFailW : Nat → Option Obj × Nat := fun _ => (none, 0)

theorem waitLoop_busy (poll : Nat → Option Obj × Nat) (fuel : Nat) :
    ∀ (i slept : Nat),
    (∀ j, j < fuel → (poll (i + j)).1 = none ∧ 0 < (poll (i + j)).2) →
    waitLoop poll i slept fuel = (.error .enoent, slept + 100 * fuel) := by
  induction fuel with
  | zero => intro i slept _; simp [waitLoop]
  | succ fuel ih =>
    intro i slept h
    have h0 := h 0 (by omega)
    simp only [Nat.add_zero] at h0
    rcases hp : poll i with ⟨op, w⟩
    rw [hp] at h0
    rcases op with _ | x
    · simp only [waitLoop, hp]
      rw [if_neg (by omega)]
      rw [ih (i + 1) (slept + 100) (fun j hj => by
        have := h (j + 1) (by omega)
        rwa [show i + (j + 1) = i + 1 + j by omega] at this)]
      simp only [Prod.mk.injEq, true_and]
      ring
    · exact absurd h0.1 (by simp)

theorem waitLoop_finds (poll : Nat → Option Obj × Nat) (k : Nat) :
    ∀ (fuel i slept : Nat) (x : Obj),
    k < fuel →
    (poll (i + k)).1 = some x →
    (∀ j, j < k → (poll (i + j)).1 = none ∧ 0 < (poll (i + j)).2) →
    waitLoop poll i slept fuel = (.ok x, slept + 100 * k) := by
  induction k with
  | zero =>
    intro fuel i slept x hk hx _
    rcases fuel with _ | fuel
    · omega
    · simp only [Nat.add_zero] at hx
      rcases hp : poll i with ⟨op, w⟩
      rw [hp] at hx
      subst hx
      simp [waitLoop, hp]
  | succ k ih =>
    intro fuel i slept x hk hx h
    rcases fuel with _ | fuel
    · omega
    · have h0 := h 0 (by omega)
      simp only [Nat.add_zero] at h0
      rcases hp : poll i with ⟨op, w⟩
      rw [hp] at h0
      rcases op with _ | y
      · simp only [waitLoop, hp]
        rw [if_neg (by omega)]
        rw [ih fuel (i + 1) (slept + 100) x (by omega)
          (by rwa [show i + 1 + k = i + (k + 1) by omega])
          (fun j hj => by
            have := h (j + 1) (by omega)
            rwa [show i + (j + 1) = i + 1 + j by omega] at this)]
        simp only [Prod.mk.injEq, true_and]
        ring
      · exact absurd h0.1 (by simp)

theorem waitLoop_writerGone (poll : Nat → Option Obj × Nat) (k : Nat) :
    ∀ (fuel i slept : Nat),
    k < fuel →
    (poll (i + k)).1 = none →
    (poll (i + k)).2 = 0 →
    (∀ j, j < k → (poll (i + j)).1 = none ∧ 0 < (poll (i + j)).2) →
    waitLoop poll i slept fuel = (.error .writerFailed, slept + 100 * k) := by
  induction k with
  | zero =>
    intro fuel i slept hk hx hw _
    rcases fuel with _ | fuel
    · omega
    · simp only [Nat.add_zero] at hx hw
      rcases hp : poll i with ⟨op, w⟩
      rw [hp] at hx hw
      subst hx
      simp only at hw
      simp [waitLoop, hp, hw]
  | succ k ih =>
    intro fuel i slept hk hx hw h
    rcases fuel with _ | fuel
    · omega
    · have h0 := h 0 (by omega)
      simp only [Nat.add_zero] at h0
      rcases hp : poll i with ⟨op, w⟩
      rw [hp] at h0
      rcases op with _ | y
      · simp only [waitLoop, hp]
        rw [if_neg (by omega)]
        rw [ih fuel (i + 1) (slept + 100) (by omega)
          (by rwa [show i + 1 + k = i + (k + 1) by omega])
          (by rwa [show i + 1 + k = i + (k + 1) by omega])
          (fun j hj => by
            have := h (j + 1) (by omega)
            rwa [show i + (j + 1) = i + 1 + j by omega] at this)]
        simp only [Prod.mk.injEq, true_and]
        ring
      · exact absurd h0.1 (by simp)

/-- Claim C6: `waitForValidObject` polls the node at most 50 times at a
fixed 100 ms interval; it returns the object as soon as a poll observes
one; exhausting the budget (all 50 polls seeing no object but active
writers) yields the no-such-entry failure after 5000 ms of waiting; a
poll observing no object and no writers yields the distinct
writer-failed failure immediately; the two failure kinds are distinct
errors. -/
theorem c6_waitForValidObject_classification (poll : Nat → Option Obj × Nat) :
    ((∀ j, j < 50 → (poll j).1 = none ∧ 0 < (poll j).2) →
      File.waitForValidObject poll = (.error .enoent, 5000)) ∧
    (∀ k x, k < 50 → (poll k).1 = some x →
      (∀ j, j < k → (poll j).1 = none ∧ 0 < (poll j).2) →
      File.waitForValidObject poll = (.ok x, 100 * k)) ∧
    (∀ k, k < 50 → (poll k).1 = none → (poll k).2 = 0 →
      (∀ j, j < k → (poll j).1 = none ∧ 0 < (poll j).2) →
      File.waitForValidObject poll = (.error .writerFailed, 100 * k)) ∧
    (MErr.writerFailed ≠ MErr.enoent) := by
  refine ⟨?_, ?_, ?_, by decide⟩
  · intro h
    have := waitLoop_busy poll 50 0 0 (fun j hj => by simpa using h j hj)
    simpa [File.waitForValidObject] using this
  · intro k x hk hx h
    have := waitLoop_finds poll k 50 0 0 x hk (by simpa using hx)
      (fun j hj => by simpa using h j hj)
    simpa [File.waitForValidObject] using this
  · intro k hk hx hw h
    have := waitLoop_writerGone poll k 50 0 0 hk (by simpa using hx)
      (by simpa using hw) (fun j hj => by simpa using h j hj)
    simpa [File.waitForValidObject] using this

/-- Witness for C6 at a concrete poll sequence: the object installed at
the third inspection is returned after two 100 ms sleeps, and a
writerless poll sequence fails with the writer-failed error at once. -/
theorem c6_witness :
    File.waitForValidObject pollW = (.ok objW, 200) ∧
    File.waitForValidObject pollFailW = (.error .writerFailed, 0) := by
  constructor
  · refine (c6_waitForValidObject_classification pollW).2.1 2 objW (by omega) rfl ?_
    intro j hj
    interval_cases j <;> exact ⟨rfl, by simp [pollW]⟩
  · exact (c6_waitForValidObject_classification pollFailW).2.2.1 0 (by omega) rfl rfl
      (fun j hj => by omega)

/-- Counterexample to claim C7 as stated: with no backing object and no
active writers, an open with read-write flags (no truncate) fails with
the writer-failed error produced by `waitForValidObject`, not with the
unsupported-mode error — so the rejection is not independent of object
state. -/
theorem c7_counterexample :
    File.Open cfgW fileW pollFailW ⟨2, false⟩ none false = .error .writerFailed ∧
    MErr.writerFailed ≠ MErr.cantOpenRWSimultaneously := by
  exact ⟨rfl, by decide⟩

/-- Claim C7 (amended): provided `waitForValidObject` yields an object
(one exists or appears within the poll budget), every open with
read-write flags and no truncate flag fails with the unsupported-mode
error; when `waitForValidObject` fails, its error is returned
instead. -/
theorem c7_open_readwrite_rejected (cfg : Config) (f : File)
    (poll : Nat → Option Obj × Nat) (flags : OpenFlags)
    (openErr : Option Nat) (hasherFails : Bool) (o : Obj)
    (hobj : (File.waitForValidObject poll).1 = .ok o)
    (hrw : flags.accessMode = 2) (ht : flags.truncate = false) :
    File.Open cfg f poll flags openErr hasherFails = .error .cantOpenRWSimultaneously := by
  simp [File.Open, hobj, OpenFlags.IsReadOnly, OpenFlags.IsWriteOnly,
    OpenFlags.IsReadWrite, hrw, ht]

/-- Witness for C7 (amended) at a concrete poll sequence on which the
object appears at the third inspection. -/
theorem c7_witness :
    File.Open cfgW fileW pollW ⟨2, false⟩ none false = .error .cantOpenRWSimultaneously := by
  refine c7_open_readwrite_rejected cfgW fileW pollW ⟨2, false⟩ none false objW ?_ rfl rfl
  rfl

/-- Counterexample to claim C8 as stated: with no backing object and no
active writers, a write-only open fails with the writer-failed error —
no WriteHandle is constructed, so construction is not independent of
whether a backing object exists. -/
theorem c8_counterexample :
    File.Open cfgW fileW pollFailW ⟨1, false⟩ none false = .error .writerFailed ∧
    (Except.error MErr.writerFailed : Except MErr (Handle × Bool)) ≠
      .ok (.writeHandle fileW.d objW.remote, true) := by
  exact ⟨rfl, by simp⟩

/-- Claim C8 (amended): provided `waitForValidObject` yields an object,
every open with write-only flags, or read-write flags combined with
truncate, marks the returned handle non-seekable and constructs a
WriteHandle against the node's parent directory and the object's remote
name. -/
theorem c8_open_write_handle (cfg : Config) (f : File)
    (poll : Nat → Option Obj × Nat) (flags : OpenFlags)
    (openErr : Option Nat) (hasherFails : Bool) (o : Obj)
    (hobj : (File.waitForValidObject poll).1 = .ok o)
    (hw : flags.accessMode = 1 ∨ (flags.accessMode = 2 ∧ flags.truncate = true)) :
    File.Open cfg f poll flags openErr hasherFails
      = .ok (.writeHandle f.d o.remote, true) := by
  rcases hw with h1 | ⟨h2, ht⟩
  · simp [File.Open, hobj, OpenFlags.IsReadOnly, OpenFlags.IsWriteOnly,
      OpenFlags.IsReadWrite, newWriteFileHandle, h1]
  · simp [File.Open, hobj, OpenFlags.IsReadOnly, OpenFlags.IsWriteOnly,
      OpenFlags.IsReadWrite, newWriteFileHandle, h2, ht]

/-- Witness for C8 (amended): a write-only open and a
read-write-with-truncate open, both against a node whose object appears
mid-poll, yield a non-seekable WriteHandle against parent directory 7
and remote name 3. -/
theorem c8_witness :
    File.Open cfgW fileW pollW ⟨1, false⟩ none false
      = .ok (.writeHandle 7 3, true) ∧
    File.Open cfgW fileW pollW ⟨2, true⟩ none false
      = .ok (.writeHandle 7 3, true) := by
  constructor
  · exact c8_open_write_handle cfgW fileW pollW ⟨1, false⟩ none false objW rfl (.inl rfl)
  · exact c8_open_write_handle cfgW fileW pollW ⟨2, true⟩ none false objW rfl (.inr ⟨rfl, rfl⟩)

/-- Counterexample to claim C9 as stated: on an already-closed handle a
second `Release` returns success (the code returns nil when `closed` is
set) and `Flush` returns success as well (it never consults the
`closed` flag and verification is vacuous here) — neither returns the
already-closed error. -/
theorem c9_counterexample :
    (ReadFileHandle.Release cfgW objW none fhClosedW).2 = .ok () ∧
    ReadFileHandle.Flush cfgW objW fhClosedW = .ok () ∧
    (Except.ok () : Except MErr Unit) ≠ .error .closedFileHandle := by
  exact ⟨rfl, rfl, by simp⟩

/-- Claim C9 (amended): on an already-closed handle, `Read` and the
internal `close` return the distinct already-closed error; a second
`Release` instead returns success leaving the handle unchanged; and
`Flush` does not consult the `closed` flag at all — it just re-runs
verification, succeeding when the hash accumulator is gone. -/
theorem c9_closed_handle_ops (cfg : Config) (o : Obj) (reqOffset : Int)
    (reqSize : Nat) (faults : Nat → IterFault) (closeErr : Option Nat)
    (fh : ReadFileHandle) (obs : Obs) (h : fh.closed = true) :
    ReadFileHandle.Read cfg o reqOffset reqSize faults fh obs
      = (fh, obs, .error .closedFileHandle) ∧
    (ReadFileHandle.close cfg o closeErr fh).2 = .error .closedFileHandle ∧
    ReadFileHandle.Release cfg o closeErr fh = (fh, .ok ()) ∧
    (fh.hash = none → ReadFileHandle.Flush cfg o fh = .ok ()) := by
  refine ⟨?_, ?_, ?_, ?_⟩
  · simp [ReadFileHandle.Read, h]
  · simp [ReadFileHandle.close, h]
  · simp [ReadFileHandle.Release, h]
  · intro hh
    simp [ReadFileHandle.Flush, ReadFileHandle.checkHash, hh]

/-- Witness for C9 (amended) at the concrete closed handle. -/
theorem c9_witness :
    ReadFileHandle.Read cfgW objW 0 4 (fun _ => cleanFault) fhClosedW obs0W
      = (fhClosedW, obs0W, .error .closedFileHandle) ∧
    ReadFileHandle.Release cfgW objW none fhClosedW = (fhClosedW, .ok ()) := by
  have h := c9_closed_handle_ops cfgW objW 0 4 (fun _ => cleanFault) none fhClosedW obs0W rfl
  exact ⟨h.1, h.2.2.1⟩

/-- Claim C5: every internal seek discards the partial hash state; when
the stream supports in-place repositioning and no reopen was forced, no
reopen happens; otherwise exactly one reopen is attempted; on success
the handle's offset and the stream position equal the target, and on
failure both are left unchanged. -/
theorem c5_seek_spec (o : Obj) (target : Int) (reopen : Bool) (flt : IterFault)
    (fh : ReadFileHandle) (obs : Obs) :
    (ReadFileHandle.seek o target reopen flt fh obs).1.hash = none ∧
    (reopen = false → o.seekable = true →
      (ReadFileHandle.seek o target reopen flt fh obs).2.1.reopens = obs.reopens) ∧
    ((reopen = true ∨ o.seekable = false) →
      (ReadFileHandle.seek o target reopen flt fh obs).2.1.reopens = obs.reopens + 1) ∧
    ((ReadFileHandle.seek o target reopen flt fh obs).2.2 = none →
      (ReadFileHandle.seek o target reopen flt fh obs).1.offset = target ∧
      (ReadFileHandle.seek o target reopen flt fh obs).1.streamPos = target) ∧
    ((ReadFileHandle.seek o target reopen flt fh obs).2.2 ≠ none →
      (ReadFileHandle.seek o target reopen flt fh obs).1.offset = fh.offset ∧
      (ReadFileHandle.seek o target reopen flt fh obs).1.streamPos = fh.streamPos) := by
  cases hr : reopen <;> cases hs : o.seekable <;>
    rcases hd : flt.directSeekErr with _ | e <;>
    rcases ho : flt.reopenErr with _ | e2 <;>
      simp [ReadFileHandle.seek, hs, hd, ho]

/-- Witness for C5 at concrete inputs: a direct seek on a seekable
stream performs no reopen and lands at the target; a forced-reopen
seek performs exactly one reopen and discards the hash state. -/
theorem c5_witness :
    (ReadFileHandle.seek objW 2 false cleanFault fh0W obs0W).2.1.reopens = 0 ∧
    (ReadFileHandle.seek objW 2 false cleanFault fh0W obs0W).1.offset = 2 ∧
    (ReadFileHandle.seek objW 2 true cleanFault fh0W obs0W).2.1.reopens = 1 ∧
    (ReadFileHandle.seek objW 2 true cleanFault fh0W obs0W).1.hash = none := by
  have h1 := c5_seek_spec objW 2 false cleanFault fh0W obs0W
  have h2 := c5_seek_spec objW 2 true cleanFault fh0W obs0W
  exact ⟨h1.2.1 rfl rfl, (h1.2.2.2.1 rfl).1, h2.2.2.1 (.inl rfl), h2.1⟩

theorem checkSums_mismatch (cfg : Config) (o : Obj) (bs : List Nat) :
    ∀ ts : List Nat,
    (∀ t ∈ ts, ∃ s, o.srcHash t = .ok s) →
    (∃ t ∈ ts, ∀ s, o.srcHash t = .ok s → cfg.digest t bs ≠ s) →
    ∃ t dst src, checkSums cfg o bs ts = .error (.corrupted t dst src) ∧
      t ∈ ts ∧ dst = cfg.digest t bs ∧ o.srcHash t = .ok src ∧ dst ≠ src := by
  intro ts
  induction ts with
  | nil => intro _ hex; simp at hex
  | cons t ts ih =>
    intro hok hex
    obtain ⟨s, hs⟩ := hok t (by simp)
    by_cases hne : cfg.digest t bs = s
    · have hex2 : ∃ t2 ∈ ts, ∀ s2, o.srcHash t2 = .ok s2 → cfg.digest t2 bs ≠ s2 := by
        obtain ⟨t2, ht2, hmis⟩ := hex
        rcases List.mem_cons.mp ht2 with rfl | hmem
        · exact absurd hne (hmis s hs)
        · exact ⟨t2, hmem, hmis⟩
      obtain ⟨t2, dst, src, hcs, hmem, hdst, hsrc, hne2⟩ :=
        ih (fun u hu => hok u (by simp [hu])) hex2
      refine ⟨t2, dst, src, ?_, by simp [hmem], hdst, hsrc, hne2⟩
      simp only [checkSums, hs]
      rw [if_neg (by simp [hne])]
      exact hcs
    · refine ⟨t, cfg.digest t bs, s, ?_, by simp, rfl, hs, hne⟩
      simp only [checkSums, hs]
      rw [if_pos hne]

/-- Claim C4: `checkHash` succeeds without comparing anything whenever
the hash accumulator is absent (hashing disabled or discarded), no
read ever occurred, or the offset is still short of the object's size;
otherwise, when every backend hash query succeeds and some supported
algorithm's computed digest disagrees with the backend-reported one, it
returns the corruption error naming a mismatching algorithm and both
digest values. -/
theorem c4_checkHash_spec (cfg : Config) (o : Obj) (fh : ReadFileHandle) :
    ((fh.hash = none ∨ fh.readCalled = false ∨ fh.offset < o.size) →
      ReadFileHandle.checkHash cfg o fh = .ok ()) ∧
    (∀ bs, fh.hash = some bs → fh.readCalled = true → o.size ≤ fh.offset →
      (∀ t ∈ o.hashTypes, ∃ s, o.srcHash t = .ok s) →
      (∃ t ∈ o.hashTypes, ∀ s, o.srcHash t = .ok s → cfg.digest t bs ≠ s) →
      ∃ t dst src,
        ReadFileHandle.checkHash cfg o fh = .error (.corrupted t dst src) ∧
        t ∈ o.hashTypes ∧ dst = cfg.digest t bs ∧ o.srcHash t = .ok src ∧ dst ≠ src) := by
  constructor
  · rintro (hh | hr | ho)
    · simp [ReadFileHandle.checkHash, hh]
    · rcases hh : fh.hash with _ | bs
      · simp [ReadFileHandle.checkHash, hh]
      · simp [ReadFileHandle.checkHash, hh, hr]
    · rcases hh : fh.hash with _ | bs
      · simp [ReadFileHandle.checkHash, hh]
      · simp [ReadFileHandle.checkHash, hh, ho]
  · intro bs hh hr ho hok hex
    have hlt : ¬ fh.offset < o.size := not_lt.mpr ho
    have := checkSums_mismatch cfg o bs o.hashTypes hok hex
    simpa [ReadFileHandle.checkHash, hh, hr, hlt] using this

/-- Witness for C4: on a handle that consumed all of `objW` with
accumulated bytes `[1, 2]`, the digest 0 disagrees with the
backend-reported 5 and `checkHash` reports the corruption; on a handle
whose accumulator was discarded it succeeds vacuously. -/
theorem c4_witness :
    (∃ t dst src,
      ReadFileHandle.checkHash cfgW objW fhHashW = .error (.corrupted t dst src) ∧
      t ∈ objW.hashTypes ∧ dst = cfgW.digest t [1, 2] ∧
      objW.srcHash t = .ok src ∧ dst ≠ src) ∧
    ReadFileHandle.checkHash cfgW objW fh4W = .ok () := by
  constructor
  · refine (c4_checkHash_spec cfgW objW fhHashW).2 [1, 2] rfl rfl (by decide) ?_ ?_
    · intro t ht
      exact ⟨5, rfl⟩
    · refine ⟨0, by simp [objW], ?_⟩
      intro s hs
      simp only [objW] at hs
      simp only [Except.ok.injEq] at hs
      subst hs
      simp [cfgW]
  · exact (c4_checkHash_spec cfgW objW fh4W).1 (.inl rfl)

theorem seek_hash_none (o : Obj) (target : Int) (reopen : Bool) (flt : IterFault)
    (fh : ReadFileHandle) (obs : Obs) :
    (ReadFileHandle.seek o target reopen flt fh obs).1.hash = none := by
  cases hr : reopen <;> cases hs : o.seekable <;>
    rcases hd : flt.directSeekErr with _ | e <;>
    rcases ho : flt.reopenErr with _ | e2 <;>
      simp [ReadFileHandle.seek, hs, hd, ho]

theorem readBody_hash_none (o : Obj) (reqSize : Nat) (flt : IterFault)
    (fh : ReadFileHandle) (obs : Obs) (h : fh.hash = none) :
    (readBody o reqSize flt fh obs).fh.hash = none := by
  have hfh1 : (if 0 < reqSize then { fh with readCalled := true } else fh).hash = none := by
    split <;> simp [h]
  simp only [readBody]
  split
  · simp [StepRes.fh, finishOK, hfh1]
  · split <;> split <;> simp [StepRes.fh, finishOK, hfh1, h]

theorem readAttempt_hash_none (o : Obj) (reqOffset : Int) (reqSize : Nat) (flt : IterFault)
    (doSeek doReopen : Bool) (fh : ReadFileHandle) (obs : Obs) (h : fh.hash = none) :
    (readAttempt o reqOffset reqSize flt doSeek doReopen fh obs).fh.hash = none := by
  cases doSeek
  · simpa [readAttempt] using readBody_hash_none o reqSize flt fh obs h
  · simp only [readAttempt, if_true]
    by_cases hle : o.size ≤ reqOffset
    · simp [hle, StepRes.fh, h]
    · rw [if_neg hle]
      rcases hsk : ReadFileHandle.seek o reqOffset doReopen flt fh obs with ⟨fh1, obs1, oe⟩
      have h1 : fh1.hash = none := by
        have := seek_hash_none o reqOffset doReopen flt fh obs
        rwa [hsk] at this
      rcases oe with _ | e
      · simpa using readBody_hash_none o reqSize flt fh1 obs1 h1
      · simpa [StepRes.fh] using h1

theorem readLoop_hash_none (o : Obj) (reqOffset : Int) (reqSize : Nat)
    (faults : Nat → IterFault) :
    ∀ (r attempt : Nat) (doSeek doReopen : Bool) (fh : ReadFileHandle) (obs : Obs),
    fh.hash = none →
    (readLoop o reqOffset reqSize faults attempt r doSeek doReopen fh obs).1.hash = none := by
  intro r
  induction r with
  | zero =>
    intro attempt doSeek doReopen fh obs h
    have ha := readAttempt_hash_none o reqOffset reqSize (faults attempt) doSeek doReopen fh obs h
    simp only [readLoop]
    rcases hra : readAttempt o reqOffset reqSize (faults attempt) doSeek doReopen fh obs with
      ⟨fh2, obs2, res⟩ | ⟨fh2, obs2, e⟩ <;> rw [hra] at ha <;> simpa [StepRes.fh] using ha
  | succ r ih =>
    intro attempt doSeek doReopen fh obs h
    have ha := readAttempt_hash_none o reqOffset reqSize (faults attempt) doSeek doReopen fh obs h
    simp only [readLoop]
    rcases hra : readAttempt o reqOffset reqSize (faults attempt) doSeek doReopen fh obs with
      ⟨fh2, obs2, res⟩ | ⟨fh2, obs2, e⟩
    · rw [hra] at ha
      simpa [StepRes.fh] using ha
    · rw [hra] at ha
      simp only [StepRes.fh] at ha
      simpa using ih (attempt + 1) true true fh2 obs2 ha

/-- Claim C10: seek discards the hash accumulator whether or not it
succeeds, and from then on the accumulator stays `nil` for the rest of
the handle's lifetime: `Read` never reinstates it, and `checkHash` —
hence the verification run by `Flush` and by `Release`/`close` —
succeeds vacuously: `Flush` returns success, and the first close's
result is exactly the stream-close outcome, with no verification error
possible. -/
theorem c10_hash_gone_after_seek (cfg : Config) (o : Obj) :
    (∀ (target : Int) (reopen : Bool) (flt : IterFault) (fh : ReadFileHandle) (obs : Obs),
      (ReadFileHandle.seek o target reopen flt fh obs).1.hash = none) ∧
    (∀ (reqOffset : Int) (reqSize : Nat) (faults : Nat → IterFault)
        (fh : ReadFileHandle) (obs : Obs), fh.hash = none →
      (ReadFileHandle.Read cfg o reqOffset reqSize faults fh obs).1.hash = none) ∧
    (∀ fh : ReadFileHandle, fh.hash = none →
      ReadFileHandle.checkHash cfg o fh = .ok ()) ∧
    (∀ fh : ReadFileHandle, fh.hash = none →
      ReadFileHandle.Flush cfg o fh = .ok ()) ∧
    (∀ (fh : ReadFileHandle) (closeErr : Option Nat), fh.hash = none →
      (ReadFileHandle.close cfg o closeErr fh).1.hash = none ∧
      (fh.closed = false → closeErr = none →
        (ReadFileHandle.close cfg o closeErr fh).2 = .ok ()) ∧
      (∀ e, fh.closed = false → closeErr = some e →
        (ReadFileHandle.close cfg o closeErr fh).2 = .error (.ioErr e))) ∧
    (∀ (fh : ReadFileHandle) (closeErr : Option Nat), fh.hash = none →
      (ReadFileHandle.Release cfg o closeErr fh).1.hash = none ∧
      (fh.closed = false → closeErr = none →
        (ReadFileHandle.Release cfg o closeErr fh).2 = .ok ()) ∧
      (∀ e, fh.closed = false → closeErr = some e →
        (ReadFileHandle.Release cfg o closeErr fh).2 = .error (.ioErr e))) := by
  refine ⟨seek_hash_none o, ?_, ?_, ?_, ?_, ?_⟩
  · intro reqOffset reqSize faults fh obs h
    by_cases hc : fh.closed
    · simp [ReadFileHandle.Read, hc, h]
    · simp only [ReadFileHandle.Read, hc, if_false, Bool.false_eq_true]
      exact readLoop_hash_none o reqOffset reqSize faults cfg.lowLevelRetries 0 _ false fh obs h
  · intro fh h
    simp [ReadFileHandle.checkHash, h]
  · intro fh h
    simp [ReadFileHandle.Flush, ReadFileHandle.checkHash, h]
  · intro fh closeErr h
    refine ⟨?_, ?_, ?_⟩
    · by_cases hc : fh.closed <;>
        rcases closeErr with _ | e <;>
        simp [ReadFileHandle.close, hc, ReadFileHandle.checkHash, h]
    · intro hc hce
      subst hce
      simp [ReadFileHandle.close, hc, ReadFileHandle.checkHash, h]
    · intro e hc hce
      subst hce
      simp [ReadFileHandle.close, hc, ReadFileHandle.checkHash, h]
  · intro fh closeErr h
    refine ⟨?_, ?_, ?_⟩
    · by_cases hc : fh.closed <;>
        rcases closeErr with _ | e <;>
        simp [ReadFileHandle.Release, ReadFileHandle.close, hc,
          ReadFileHandle.checkHash, h]
    · intro hc hce
      subst hce
      simp [ReadFileHandle.Release, ReadFileHandle.close, hc,
        ReadFileHandle.checkHash, h]
    · intro e hc hce
      subst hce
      simp [ReadFileHandle.Release, ReadFileHandle.close, hc,
        ReadFileHandle.checkHash, h]

/-- Witness for C10 at concrete inputs: after a (reopen-forced, failed
or successful) seek the accumulator is gone, a subsequent read keeps it
gone, verification by `Flush` succeeds vacuously, and the first
`Release` returns exactly the stream-close outcome — success on a
clean close, and the propagated stream error (never a corruption
error) when the stream close fails. -/
theorem c10_witness :
    (ReadFileHandle.seek objW 2 true ⟨none, some 9, none⟩ fh0W obs0W).1.hash = none ∧
    (ReadFileHandle.Read cfgW objW 2 1 (fun _ => cleanFault) fh4W obs0W).1.hash = none ∧
    ReadFileHandle.Flush cfgW objW fh4W = .ok () ∧
    (ReadFileHandle.Release cfgW objW none fh4W).2 = .ok () ∧
    (ReadFileHandle.Release cfgW objW (some 9) fh4W).2 = .error (.ioErr 9) := by
  have h := c10_hash_gone_after_seek cfgW objW
  exact ⟨h.1 2 true ⟨none, some 9, none⟩ fh0W obs0W,
    h.2.1 2 1 (fun _ => cleanFault) fh4W obs0W rfl,
    h.2.2.2.1 fh4W rfl,
    (h.2.2.2.2.2 fh4W none rfl).2.1 rfl rfl,
    (h.2.2.2.2.2 fh4W (some 9) rfl).2.2 9 rfl rfl⟩

theorem readLoop_done (o : Obj) (reqOffset : Int) (reqSize : Nat) (faults : Nat → IterFault)
    (attempt r : Nat) (doSeek doReopen : Bool) (fh : ReadFileHandle) (obs : Obs)
    (fh2 : ReadFileHandle) (obs2 : Obs) (res : Except MErr (List Nat))
    (h : readAttempt o reqOffset reqSize (faults attempt) doSeek doReopen fh obs
      = .done fh2 obs2 res) :
    readLoop o reqOffset reqSize faults attempt r doSeek doReopen fh obs = (fh2, obs2, res) := by
  cases r <;> simp [readLoop, h]

/-- Counterexample to claim C1 as stated: a request at offset 4 = the
object's size on a handle whose current offset is also 4 skips the
beyond-end check (no seek is pending), so the underlying stream IS read
(one `io.ReadFull` call, observed through the stream-read counter going
from 0 to 1) even though the result is the empty success with the
offset unchanged. -/
theorem c1_counterexample :
    (ReadFileHandle.Read cfgW objW 4 8 (fun _ => cleanFault) fh4W obs0W).2.1.streamReads = 1 ∧
    (ReadFileHandle.Read cfgW objW 4 8 (fun _ => cleanFault) fh4W obs0W).2.2 = .ok [] ∧
    (ReadFileHandle.Read cfgW objW 4 8 (fun _ => cleanFault) fh4W obs0W).1.offset = 4 ∧
    obs0W.streamReads = 0 := by
  refine ⟨rfl, rfl, rfl, rfl⟩

/-- Claim C1 (amended): a Read whose requested offset is at or beyond
the object's size and differs from the handle's offset returns an empty
success immediately, leaving the handle and the stream completely
untouched, under any fault environment.  When the requested offset
instead equals the handle's offset (handle and faithful stream at the
object's end, fault-free attempt, non-empty request), the result is
still an empty success with the offset unchanged, but the stream is
read once (returning EOF) and `readCalled` is set. -/
theorem c1_read_at_or_beyond_eof (cfg : Config) (o : Obj) (reqOffset : Int) (reqSize : Nat)
    (faults : Nat → IterFault) (fh : ReadFileHandle) (obs : Obs)
    (hclosed : fh.closed = false) :
    (o.size ≤ reqOffset → reqOffset ≠ fh.offset →
      ReadFileHandle.Read cfg o reqOffset reqSize faults fh obs = (fh, obs, .ok [])) ∧
    (reqOffset = fh.offset → fh.offset = o.size → fh.streamPos = o.size →
      faults 0 = cleanFault → 0 < reqSize →
      (ReadFileHandle.Read cfg o reqOffset reqSize faults fh obs).2.2 = .ok [] ∧
      (ReadFileHandle.Read cfg o reqOffset reqSize faults fh obs).1.offset = fh.offset ∧
      (ReadFileHandle.Read cfg o reqOffset reqSize faults fh obs).2.1.streamReads
        = obs.streamReads + 1 ∧
      (ReadFileHandle.Read cfg o reqOffset reqSize faults fh obs).1.readCalled = true) := by
  constructor
  · intro hge hne
    have hds : decide (reqOffset ≠ fh.offset) = true := by simp [hne]
    have hread : ReadFileHandle.Read cfg o reqOffset reqSize faults fh obs
        = readLoop o reqOffset reqSize faults 0 cfg.lowLevelRetries true false fh obs := by
      simp [ReadFileHandle.Read, hclosed, hds]
    have hatt : readAttempt o reqOffset reqSize (faults 0) true false fh obs
        = .done fh obs (.ok []) := by
      simp [readAttempt, hge]
    rw [hread]
    exact readLoop_done o reqOffset reqSize faults 0 cfg.lowLevelRetries true false fh obs
      fh obs (.ok []) hatt
  · intro hoff hsz hsp hf hrs
    have hds : decide (reqOffset ≠ fh.offset) = false := by simp [hoff]
    have hread : ReadFileHandle.Read cfg o reqOffset reqSize faults fh obs
        = readLoop o reqOffset reqSize faults 0 cfg.lowLevelRetries false false fh obs := by
      simp [ReadFileHandle.Read, hclosed, hds]
    have h0 : reqSize ≠ 0 := by omega
    have hfull : readFullN o fh.streamPos reqSize (faults 0) = (0, some .eof) := by
      simp [readFullN, hf, cleanFault, hsp, h0, Int.sub_self]
    have hbody : readBody o reqSize (faults 0) fh obs
        = .done (finishOK { fh with readCalled := true, streamPos := fh.streamPos + ((0 : Nat) : Int) }
            (fh.offset + ((0 : Nat) : Int)) (bytesAt o fh.streamPos 0))
          { obs with streamReads := obs.streamReads + 1 }
          (.ok (bytesAt o fh.streamPos 0)) := by
      simp only [readBody, if_pos hrs]
      rw [show ({ fh with readCalled := true } : ReadFileHandle).streamPos = fh.streamPos
        from rfl, hfull]
      simp [hsz]
    have hatt : readAttempt o reqOffset reqSize (faults 0) false false fh obs
        = .done (finishOK { fh with readCalled := true, streamPos := fh.streamPos + ((0 : Nat) : Int) }
            (fh.offset + ((0 : Nat) : Int)) (bytesAt o fh.streamPos 0))
          { obs with streamReads := obs.streamReads + 1 }
          (.ok (bytesAt o fh.streamPos 0)) := by
      simpa [readAttempt] using hbody
    rw [hread, readLoop_done o reqOffset reqSize faults 0 cfg.lowLevelRetries false false fh obs
      _ _ _ hatt]
    refine ⟨by simp [bytesAt], by simp [finishOK], rfl, by simp [finishOK]⟩

/-- Witness for C1 (amended): on the concrete object of size 4, a read
at offset 9 from a handle at offset 4 returns the empty success leaving
handle and counters untouched; a read at offset 4 from the same handle
returns the empty success with offset unchanged but one stream read
performed. -/
theorem c1_witness :
    ReadFileHandle.Read cfgW objW 9 8 (fun _ => cleanFault) fh4W obs0W
      = (fh4W, obs0W, .ok []) ∧
    (ReadFileHandle.Read cfgW objW 4 8 (fun _ => cleanFault) fh4W obs0W).1.offset = fh4W.offset := by
  have h := c1_read_at_or_beyond_eof cfgW objW 9 8 (fun _ => cleanFault) fh4W obs0W rfl
  have h2 := c1_read_at_or_beyond_eof cfgW objW 4 8 (fun _ => cleanFault) fh4W obs0W rfl
  exact ⟨h.1 (by decide) (by decide), (h2.2 rfl rfl rfl rfl (by decide)).2.1⟩

theorem readFullN_none_spec (o : Obj) (pos : Int) (bufSize : Nat) (flt : IterFault)
    (n : Nat) (h : readFullN o pos bufSize flt = (n, none)) :
    n = min bufSize (o.size - pos).toNat := by
  simp only [readFullN] at h
  split at h
  · simp only [Prod.mk.injEq] at h
    rename_i hbz
    omega
  · split at h
    · simp at h
    · split at h
      · simp only [Prod.mk.injEq] at h
        rename_i hbz hfe hle
        omega
      · split at h
        · simp at h
        · simp at h

theorem readFullN_eof_spec (o : Obj) (pos : Int) (bufSize : Nat) (flt : IterFault)
    (n : Nat) (e : MErr) (h : readFullN o pos bufSize flt = (n, some e))
    (he : e = .eof ∨ e = .unexpectedEOF) :
    n = min bufSize (o.size - pos).toNat := by
  simp only [readFullN] at h
  split at h
  · simp at h
  · split at h
    · simp only [Prod.mk.injEq, Option.some.injEq] at h
      rcases h with ⟨h1, h2⟩
      rcases he with rfl | rfl <;> simp_all
    · split at h
      · simp at h
      · split at h
        · simp only [Prod.mk.injEq, Option.some.injEq] at h
          rename_i hbz hfe hle hz
          omega
        · simp only [Prod.mk.injEq, Option.some.injEq] at h
          rename_i hbz hfe hle hz
          omega

theorem seek_ok_fields (o : Obj) (target : Int) (reopen : Bool) (flt : IterFault)
    (fh fh1 : ReadFileHandle) (obs obs1 : Obs)
    (h : ReadFileHandle.seek o target reopen flt fh obs = (fh1, obs1, none)) :
    fh1.offset = target ∧ fh1.streamPos = target ∧ fh1.hash = none := by
  cases hr : reopen <;> cases hs : o.seekable <;>
    rcases hd : flt.directSeekErr with _ | e <;>
    rcases ho : flt.reopenErr with _ | e2 <;>
    subst hr <;>
    simp [ReadFileHandle.seek, hs, hd, ho, Prod.mk.injEq] at h <;>
    · obtain ⟨h1, -⟩ := h
      rw [← h1]
      simp

theorem readBody_done_spec (o : Obj) (reqSize : Nat) (flt : IterFault)
    (fh : ReadFileHandle) (obs : Obs) (fh2 : ReadFileHandle) (obs2 : Obs)
    (res : Except MErr (List Nat))
    (hsync : fh.streamPos = fh.offset)
    (hdone : readBody o reqSize flt fh obs = .done fh2 obs2 res) :
    ∃ data, res = .ok data ∧
      data.length = min reqSize (o.size - fh.offset).toNat ∧
      fh2.offset = fh.offset + data.length := by
  have hfs : (if 0 < reqSize then { fh with readCalled := true } else fh).streamPos
      = fh.offset := by split <;> simp [hsync]
  have hfo : (if 0 < reqSize then { fh with readCalled := true } else fh).offset
      = fh.offset := by split <;> simp
  simp only [readBody, hfs, hfo] at hdone
  rcases hnr : readFullN o fh.offset reqSize flt with ⟨n, _ | e⟩ <;> rw [hnr] at hdone
  · simp only [StepRes.done.injEq] at hdone
    obtain ⟨h1, -, h3⟩ := hdone
    have hlen : (bytesAt o fh.offset n).length = n := by
      unfold bytesAt
      rw [List.length_map, List.length_range]
    refine ⟨bytesAt o fh.offset n, h3.symm, ?_, ?_⟩
    · rw [hlen]
      exact readFullN_none_spec o fh.offset reqSize flt n hnr
    · rw [← h1]
      show fh.offset + (n : Int) = fh.offset + ((bytesAt o fh.offset n).length : Int)
      rw [hlen]
  · split at hdone
    · rename_i hcon
      cases hcon
    · rename_i n2 e2 hcon
      cases hcon
      split at hdone
      · rename_i hcond
        simp only [StepRes.done.injEq] at hdone
        obtain ⟨h1, -, h3⟩ := hdone
        have hlen : (bytesAt o fh.offset n).length = n := by
          unfold bytesAt
          rw [List.length_map, List.length_range]
        refine ⟨bytesAt o fh.offset n, h3.symm, ?_, ?_⟩
        · rw [hlen]
          exact readFullN_eof_spec o fh.offset reqSize flt n e hnr hcond.1
        · rw [← h1]
          show fh.offset + (n : Int) = fh.offset + ((bytesAt o fh.offset n).length : Int)
          rw [hlen]
      · simp at hdone

theorem readAttempt_done_inv (o : Obj) (reqOffset : Int) (reqSize : Nat) (flt : IterFault)
    (doSeek doReopen : Bool) (fh : ReadFileHandle) (obs : Obs)
    (fh2 : ReadFileHandle) (obs2 : Obs) (res : Except MErr (List Nat))
    (hlt : reqOffset < o.size)
    (h : readAttempt o reqOffset reqSize flt doSeek doReopen fh obs = .done fh2 obs2 res) :
    (doSeek = false ∧ readBody o reqSize flt fh obs = .done fh2 obs2 res) ∨
    (∃ fh1 obs1, ReadFileHandle.seek o reqOffset doReopen flt fh obs = (fh1, obs1, none) ∧
      fh1.offset = reqOffset ∧ fh1.streamPos = reqOffset ∧
      readBody o reqSize flt fh1 obs1 = .done fh2 obs2 res) := by
  cases doSeek
  · exact .inl ⟨rfl, by simpa [readAttempt] using h⟩
  · right
    rw [readAttempt, if_pos rfl, if_neg (not_le.mpr hlt)] at h
    rcases hsk : ReadFileHandle.seek o reqOffset doReopen flt fh obs with ⟨fh1, obs1, oe⟩
    rcases oe with _ | e
    · obtain ⟨ho1, hs1, -⟩ := seek_ok_fields o reqOffset doReopen flt fh fh1 obs obs1 hsk
      refine ⟨fh1, obs1, ?_, ho1, hs1, ?_⟩
      · first
          | exact hsk
          | rfl
      · first
          | simpa using h
          | (rw [hsk] at h; simpa using h)
    · first
        | simp at h
        | (rw [hsk] at h; simp at h)

theorem readAttempt_done_ok_spec (o : Obj) (reqOffset : Int) (reqSize : Nat) (flt : IterFault)
    (doSeek doReopen : Bool) (fh : ReadFileHandle) (obs : Obs)
    (fh2 : ReadFileHandle) (obs2 : Obs) (data : List Nat)
    (hlt : reqOffset < o.size)
    (hinv : doSeek = false → fh.offset = reqOffset ∧ fh.streamPos = reqOffset)
    (h : readAttempt o reqOffset reqSize flt doSeek doReopen fh obs
      = .done fh2 obs2 (.ok data)) :
    data.length = min reqSize (o.size - reqOffset).toNat ∧
    fh2.offset = reqOffset + data.length := by
  rcases readAttempt_done_inv o reqOffset reqSize flt doSeek doReopen fh obs fh2 obs2 _ hlt h
    with ⟨hds, hb⟩ | ⟨fh1, obs1, -, ho1, hs1, hb⟩
  · obtain ⟨ho, hs⟩ := hinv hds
    obtain ⟨d, hd, hlen, hoff⟩ :=
      readBody_done_spec o reqSize flt fh obs fh2 obs2 _ (hs.trans ho.symm) hb
    injection hd with hdd
    subst hdd
    rw [ho] at hlen hoff
    exact ⟨hlen, hoff⟩
  · obtain ⟨d, hd, hlen, hoff⟩ :=
      readBody_done_spec o reqSize flt fh1 obs1 fh2 obs2 _ (hs1.trans ho1.symm) hb
    injection hd with hdd
    subst hdd
    rw [ho1] at hlen hoff
    exact ⟨hlen, hoff⟩

theorem readLoop_ok_spec (o : Obj) (reqOffset : Int) (reqSize : Nat)
    (faults : Nat → IterFault) (hlt : reqOffset < o.size) :
    ∀ (r attempt : Nat) (doSeek doReopen : Bool) (fh : ReadFileHandle) (obs : Obs)
      (fh2 : ReadFileHandle) (obs2 : Obs) (data : List Nat),
    (doSeek = false → fh.offset = reqOffset ∧ fh.streamPos = reqOffset) →
    readLoop o reqOffset reqSize faults attempt r doSeek doReopen fh obs
      = (fh2, obs2, .ok data) →
    data.length = min reqSize (o.size - reqOffset).toNat ∧
    fh2.offset = reqOffset + data.length := by
  intro r
  induction r with
  | zero =>
    intro attempt doSeek doReopen fh obs fh2 obs2 data hinv h
    simp only [readLoop] at h
    rcases hra : readAttempt o reqOffset reqSize (faults attempt) doSeek doReopen fh obs
      with ⟨fh3, obs3, res⟩ | ⟨fh3, obs3, e⟩ <;> rw [hra] at h <;>
      simp only [Prod.mk.injEq] at h
    · obtain ⟨h1, h2, h3⟩ := h
      subst h1; subst h2; subst h3
      exact readAttempt_done_ok_spec o reqOffset reqSize (faults attempt) doSeek doReopen
        fh obs fh3 obs3 data hlt hinv hra
    · exact absurd h.2.2 (by simp)
  | succ r ih =>
    intro attempt doSeek doReopen fh obs fh2 obs2 data hinv h
    simp only [readLoop] at h
    rcases hra : readAttempt o reqOffset reqSize (faults attempt) doSeek doReopen fh obs
      with ⟨fh3, obs3, res⟩ | ⟨fh3, obs3, e⟩ <;> rw [hra] at h
    · simp only [Prod.mk.injEq] at h
      obtain ⟨h1, h2, h3⟩ := h
      subst h1; subst h2; subst h3
      exact readAttempt_done_ok_spec o reqOffset reqSize (faults attempt) doSeek doReopen
        fh obs fh3 obs3 data hlt hinv hra
    · exact ih (attempt + 1) true true fh3 obs3 fh2 obs2 data (fun hh => nomatch hh) h

/-- Claim C2: every successful Read whose requested offset lies
strictly inside the object returns a buffer of exactly the requested
size, unless filling it reaches the object's end, in which case the
buffer is exactly (size − requested offset) bytes; either way the
handle's offset afterwards equals the requested offset plus the number
of bytes returned.  This holds under any fault environment, starting
from any open handle whose stream is positioned at its offset. -/
theorem c2_read_inside (cfg : Config) (o : Obj) (reqOffset : Int) (reqSize : Nat)
    (faults : Nat → IterFault) (fh : ReadFileHandle) (obs : Obs)
    (fh2 : ReadFileHandle) (obs2 : Obs) (data : List Nat)
    (_h0 : 0 ≤ reqOffset) (h1 : reqOffset < o.size)
    (hclosed : fh.closed = false) (hsync : fh.streamPos = fh.offset)
    (hres : ReadFileHandle.Read cfg o reqOffset reqSize faults fh obs
      = (fh2, obs2, .ok data)) :
    data.length = min reqSize (o.size - reqOffset).toNat ∧
    fh2.offset = reqOffset + data.length := by
  rw [ReadFileHandle.Read, if_neg (by simp [hclosed])] at hres
  refine readLoop_ok_spec o reqOffset reqSize faults h1 cfg.lowLevelRetries 0
    (decide (reqOffset ≠ fh.offset)) false fh obs fh2 obs2 data ?_ hres
  intro hds
  have heq : reqOffset = fh.offset := by
    by_contra hne
    simp [hne] at hds
  exact ⟨heq.symm, by rw [hsync, heq]⟩

/-- Witness for C2: a fault-free read of 2 bytes at offset 1 inside the
4-byte object returns exactly 2 bytes and advances the offset to 3; a
read of 8 bytes at offset 1 is truncated to the 3 remaining bytes and
advances the offset to 4. -/
theorem c2_witness :
    ReadFileHandle.Read cfgW objW 0 2 (fun _ => cleanFault) fh0W obs0W
      = (⟨false, 2, true, some [7, 7], 2⟩, ⟨0, 1⟩, .ok [7, 7]) ∧
    ([7, 7] : List Nat).length = min 2 ((objW.size - 0).toNat) ∧
    (⟨false, 2, true, some [7, 7], 2⟩ : ReadFileHandle).offset
      = 0 + (([7, 7] : List Nat).length : Int) ∧
    ReadFileHandle.Read cfgW objW 1 8 (fun _ => cleanFault) fh0W obs0W
      = (⟨false, 4, true, none, 4⟩, ⟨0, 1⟩, .ok [7, 7, 7]) ∧
    ([7, 7, 7] : List Nat).length = min 8 ((objW.size - 1).toNat) := by
  have heq : ReadFileHandle.Read cfgW objW 0 2 (fun _ => cleanFault) fh0W obs0W
      = (⟨false, 2, true, some [7, 7], 2⟩, ⟨0, 1⟩, .ok [7, 7]) := by rfl
  have heq2 : ReadFileHandle.Read cfgW objW 1 8 (fun _ => cleanFault) fh0W obs0W
      = (⟨false, 4, true, none, 4⟩, ⟨0, 1⟩, .ok [7, 7, 7]) := by rfl
  have h := c2_read_inside cfgW objW 0 2 (fun _ => cleanFault) fh0W obs0W
    ⟨false, 2, true, some [7, 7], 2⟩ ⟨0, 1⟩ [7, 7] (by decide) (by decide) rfl rfl heq
  have h2 := c2_read_inside cfgW objW 1 8 (fun _ => cleanFault) fh0W obs0W
    ⟨false, 4, true, none, 4⟩ ⟨0, 1⟩ [7, 7, 7] (by decide) (by decide) rfl rfl heq2
  exact ⟨heq, h.1, h.2, heq2, h2.1⟩

theorem readAttempt_done_res (o : Obj) (reqOffset : Int) (reqSize : Nat) (flt : IterFault)
    (doSeek doReopen : Bool) (fh : ReadFileHandle) (obs : Obs)
    (fh2 : ReadFileHandle) (obs2 : Obs) (res : Except MErr (List Nat))
    (hlt : reqOffset < o.size)
    (hinv : doSeek = false → fh.offset = reqOffset ∧ fh.streamPos = reqOffset)
    (h : readAttempt o reqOffset reqSize flt doSeek doReopen fh obs = .done fh2 obs2 res) :
    ∃ data, res = .ok data := by
  rcases readAttempt_done_inv o reqOffset reqSize flt doSeek doReopen fh obs fh2 obs2 res hlt h
    with ⟨hds, hb⟩ | ⟨fh1, obs1, -, ho1, hs1, hb⟩
  · obtain ⟨ho, hs⟩ := hinv hds
    obtain ⟨d, hd, -, -⟩ :=
      readBody_done_spec o reqSize flt fh obs fh2 obs2 res (hs.trans ho.symm) hb
    exact ⟨d, hd⟩
  · obtain ⟨d, hd, -, -⟩ :=
      readBody_done_spec o reqSize flt fh1 obs1 fh2 obs2 res (hs1.trans ho1.symm) hb
    exact ⟨d, hd⟩

theorem seek_noSeekErr (o : Obj) (target : Int) (reopen : Bool) (flt : IterFault)
    (fh : ReadFileHandle) (obs : Obs)
    (hd : flt.directSeekErr = none) (ho : flt.reopenErr = none) :
    ∃ obs2, ReadFileHandle.seek o target reopen flt fh obs
      = ({ fh with hash := none, streamPos := target, offset := target }, obs2, none) := by
  cases hr : reopen
  · cases hs : o.seekable
    · exact ⟨{ obs with reopens := obs.reopens + 1 }, by simp [ReadFileHandle.seek, hs, hd, ho]⟩
    · exact ⟨obs, by simp [ReadFileHandle.seek, hs, hd, ho]⟩
  · exact ⟨{ obs with reopens := obs.reopens + 1 }, by simp [ReadFileHandle.seek, hd, ho]⟩

theorem readBody_clean_done (o : Obj) (reqSize : Nat) (fh : ReadFileHandle) (obs : Obs)
    (hsync : fh.streamPos = fh.offset) (hlt : fh.offset < o.size) :
    ∃ fh2 obs2 data, readBody o reqSize cleanFault fh obs = .done fh2 obs2 (.ok data) := by
  by_cases hrs : 0 < reqSize
  · by_cases hle : reqSize ≤ (o.size - fh.offset).toNat
    · have hfull : readFullN o fh.streamPos reqSize cleanFault = (reqSize, none) := by
        simp [readFullN, cleanFault, hsync, hle, Nat.pos_iff_ne_zero.mp hrs]
      refine ⟨finishOK { fh with readCalled := true, streamPos := fh.streamPos + (reqSize : Int) }
          (fh.offset + (reqSize : Int)) (bytesAt o fh.streamPos reqSize),
        { obs with streamReads := obs.streamReads + 1 },
        bytesAt o fh.streamPos reqSize, ?_⟩
      simp [readBody, hrs, hfull]
    · have havail : (o.size - fh.offset).toNat ≠ 0 := by omega
      have hfull : readFullN o fh.streamPos reqSize cleanFault
          = ((o.size - fh.offset).toNat, some .unexpectedEOF) := by
        simp [readFullN, cleanFault, hsync, hle, havail, Nat.pos_iff_ne_zero.mp hrs]
      have hcast : (((o.size - fh.offset).toNat : Nat) : Int) = o.size - fh.offset :=
        Int.toNat_of_nonneg (by omega)
      have hoffs : fh.offset + (((o.size - fh.offset).toNat : Nat) : Int) = o.size := by
        rw [hcast]
        omega
      refine ⟨finishOK { fh with readCalled := true, streamPos := fh.streamPos + (((o.size - fh.offset).toNat : Nat) : Int) } (fh.offset + (((o.size - fh.offset).toNat : Nat) : Int)) (bytesAt o fh.streamPos (o.size - fh.offset).toNat), { obs with streamReads := obs.streamReads + 1 }, bytesAt o fh.streamPos (o.size - fh.offset).toNat, ?_⟩
      simp [readBody, hrs, hfull, hoffs]
      omega
  · have hz : reqSize = 0 := by omega
    subst hz
    exact ⟨finishOK { fh with streamPos := fh.streamPos + ((0 : Nat) : Int) }
        (fh.offset + ((0 : Nat) : Int)) (bytesAt o fh.streamPos 0), obs,
      bytesAt o fh.streamPos 0, rfl⟩

theorem readAttempt_clean_done (o : Obj) (reqOffset : Int) (reqSize : Nat)
    (doSeek doReopen : Bool) (fh : ReadFileHandle) (obs : Obs)
    (hlt : reqOffset < o.size)
    (hinv : doSeek = false → fh.offset = reqOffset ∧ fh.streamPos = reqOffset) :
    ∃ fh2 obs2 data,
      readAttempt o reqOffset reqSize cleanFault doSeek doReopen fh obs
        = .done fh2 obs2 (.ok data) := by
  cases doSeek
  · obtain ⟨ho, hs⟩ := hinv rfl
    obtain ⟨fh2, obs2, data, hb⟩ :=
      readBody_clean_done o reqSize fh obs (hs.trans ho.symm) (ho ▸ hlt)
    exact ⟨fh2, obs2, data, by simpa [readAttempt] using hb⟩
  · obtain ⟨obs1, hsk⟩ := seek_noSeekErr o reqOffset doReopen cleanFault fh obs rfl rfl
    obtain ⟨fh2, obs2, data, hb⟩ := readBody_clean_done o reqSize
      { fh with hash := none, streamPos := reqOffset, offset := reqOffset } obs1 rfl hlt
    refine ⟨fh2, obs2, data, ?_⟩
    rw [readAttempt, if_pos rfl, if_neg (not_le.mpr hlt), hsk]
    exact hb

theorem readLoop_recovers (o : Obj) (reqOffset : Int) (reqSize : Nat)
    (es : Nat → Nat) (N : Nat) (hlt : reqOffset < o.size) :
    ∀ (r attempt : Nat) (doSeek doReopen : Bool) (fh : ReadFileHandle) (obs : Obs),
    N ≤ attempt + r →
    (doSeek = false → fh.offset = reqOffset ∧ fh.streamPos = reqOffset) →
    ∃ fh2 obs2 data,
      readLoop o reqOffset reqSize (fun i => if i < N then failFault (es i) else cleanFault)
        attempt r doSeek doReopen fh obs = (fh2, obs2, .ok data) := by
  intro r
  induction r with
  | zero =>
    intro attempt doSeek doReopen fh obs hN hinv
    have hcl : (fun i => if i < N then failFault (es i) else cleanFault) attempt
        = cleanFault := by
      simp only
      rw [if_neg (by omega)]
    obtain ⟨fh2, obs2, data, hd⟩ :=
      readAttempt_clean_done o reqOffset reqSize doSeek doReopen fh obs hlt hinv
    refine ⟨fh2, obs2, data, ?_⟩
    have hd2 : readAttempt o reqOffset reqSize
        ((fun i => if i < N then failFault (es i) else cleanFault) attempt)
        doSeek doReopen fh obs = .done fh2 obs2 (.ok data) := by rw [hcl]; exact hd
    simp only [readLoop, hd2]
  | succ r ih =>
    intro attempt doSeek doReopen fh obs hN hinv
    rcases hra : readAttempt o reqOffset reqSize
        ((fun i => if i < N then failFault (es i) else cleanFault) attempt)
        doSeek doReopen fh obs with ⟨fh3, obs3, res⟩ | ⟨fh3, obs3, e⟩
    · obtain ⟨data, rfl⟩ := readAttempt_done_res o reqOffset reqSize _ doSeek doReopen
        fh obs fh3 obs3 res hlt hinv hra
      exact ⟨fh3, obs3, data,
        readLoop_done o reqOffset reqSize _ attempt (r + 1) doSeek doReopen fh obs
          fh3 obs3 _ hra⟩
    · obtain ⟨fh2, obs2, data, hrec⟩ :=
        ih (attempt + 1) true true fh3 obs3 (by omega) (fun hh => nomatch hh)
      refine ⟨fh2, obs2, data, ?_⟩
      simp only [readLoop, hra]
      exact hrec

theorem readBody_fail_retry (o : Obj) (reqSize : Nat) (e : Nat)
    (fh : ReadFileHandle) (obs : Obs) (hrs : 0 < reqSize) :
    readBody o reqSize (failFault e) fh obs
      = .retry { fh with readCalled := true, streamPos := fh.streamPos }
          { obs with streamReads := obs.streamReads + 1 } (.ioErr e) := by
  have hfull : readFullN o fh.streamPos reqSize (failFault e) = (0, some (.ioErr e)) := by
    simp [readFullN, failFault, Nat.pos_iff_ne_zero.mp hrs]
  simp [readBody, hrs, hfull]

theorem readAttempt_fail_retry (o : Obj) (reqOffset : Int) (reqSize : Nat) (e : Nat)
    (doSeek doReopen : Bool) (fh : ReadFileHandle) (obs : Obs)
    (hlt : reqOffset < o.size) (hrs : 0 < reqSize) :
    ∃ fh3 obs3, readAttempt o reqOffset reqSize (failFault e) doSeek doReopen fh obs
      = .retry fh3 obs3 (.ioErr e) := by
  cases doSeek
  · refine ⟨{ fh with readCalled := true, streamPos := fh.streamPos },
      { obs with streamReads := obs.streamReads + 1 }, ?_⟩
    rw [show readAttempt o reqOffset reqSize (failFault e) false doReopen fh obs
      = readBody o reqSize (failFault e) fh obs from by simp [readAttempt]]
    exact readBody_fail_retry o reqSize e fh obs hrs
  · obtain ⟨obs1, hsk⟩ := seek_noSeekErr o reqOffset doReopen (failFault e) fh obs rfl rfl
    refine ⟨{ fh with hash := none, offset := reqOffset, readCalled := true, streamPos := reqOffset }, { obs1 with streamReads := obs1.streamReads + 1 }, ?_⟩
    rw [readAttempt, if_pos rfl, if_neg (not_le.mpr hlt), hsk]
    exact readBody_fail_retry o reqSize e
      { fh with hash := none, streamPos := reqOffset, offset := reqOffset } obs1 hrs

theorem readLoop_exhausts (o : Obj) (reqOffset : Int) (reqSize : Nat) (es : Nat → Nat)
    (hlt : reqOffset < o.size) (hrs : 0 < reqSize) :
    ∀ (r attempt : Nat) (doSeek doReopen : Bool) (fh : ReadFileHandle) (obs : Obs),
    ∃ fh2 obs2,
      readLoop o reqOffset reqSize (fun i => failFault (es i)) attempt r doSeek doReopen fh obs
        = (fh2, obs2, .error (.ioErr (es (attempt + r)))) := by
  intro r
  induction r with
  | zero =>
    intro attempt doSeek doReopen fh obs
    obtain ⟨fh3, obs3, hra⟩ := readAttempt_fail_retry o reqOffset reqSize (es attempt)
      doSeek doReopen fh obs hlt hrs
    refine ⟨fh3, obs3, ?_⟩
    simp only [readLoop, hra]
    rw [Nat.add_zero]
  | succ r ih =>
    intro attempt doSeek doReopen fh obs
    obtain ⟨fh3, obs3, hra⟩ := readAttempt_fail_retry o reqOffset reqSize (es attempt)
      doSeek doReopen fh obs hlt hrs
    obtain ⟨fh2, obs2, hrec⟩ := ih (attempt + 1) true true fh3 obs3
    rw [show attempt + 1 + r = attempt + (r + 1) by omega] at hrec
    refine ⟨fh2, obs2, ?_⟩
    simp only [readLoop, hra]
    exact hrec

/-- Claim C3: under injected transient failures the read loop retries,
re-seeking with a forced reopen, up to the configured low-level retry
count: with N ≤ limit consecutive failing attempts followed by
fault-free ones, a read strictly inside the object succeeds; with every
attempt failing, the read returns the error observed on the last
attempt (attempt index = the retry limit). -/
theorem c3_read_retries (cfg : Config) (o : Obj) (reqOffset : Int) (reqSize : Nat)
    (es : Nat → Nat) (N : Nat) (fh : ReadFileHandle) (obs : Obs)
    (h1 : reqOffset < o.size) (hclosed : fh.closed = false)
    (hsync : fh.streamPos = fh.offset) :
    (N ≤ cfg.lowLevelRetries →
      ∃ fh2 obs2 data,
        ReadFileHandle.Read cfg o reqOffset reqSize
          (fun i => if i < N then failFault (es i) else cleanFault) fh obs
          = (fh2, obs2, .ok data)) ∧
    (0 < reqSize →
      ∃ fh2 obs2,
        ReadFileHandle.Read cfg o reqOffset reqSize (fun i => failFault (es i)) fh obs
          = (fh2, obs2, .error (.ioErr (es cfg.lowLevelRetries)))) := by
  have hinv : decide (reqOffset ≠ fh.offset) = false →
      fh.offset = reqOffset ∧ fh.streamPos = reqOffset := by
    intro hds
    have heq : reqOffset = fh.offset := by
      by_contra hne
      simp [hne] at hds
    exact ⟨heq.symm, by rw [hsync, heq]⟩
  constructor
  · intro hN
    obtain ⟨fh2, obs2, data, hl⟩ := readLoop_recovers o reqOffset reqSize es N h1
      cfg.lowLevelRetries 0 (decide (reqOffset ≠ fh.offset)) false fh obs (by omega) hinv
    refine ⟨fh2, obs2, data, ?_⟩
    rw [ReadFileHandle.Read, if_neg (by simp [hclosed])]
    exact hl
  · intro hrs
    obtain ⟨fh2, obs2, hl⟩ := readLoop_exhausts o reqOffset reqSize es h1 hrs
      cfg.lowLevelRetries 0 (decide (reqOffset ≠ fh.offset)) false fh obs
    refine ⟨fh2, obs2, ?_⟩
    rw [ReadFileHandle.Read, if_neg (by simp [hclosed])]
    rw [show (0 : Nat) + cfg.lowLevelRetries = cfg.lowLevelRetries by omega] at hl
    exact hl

/-- Witness for C3 with a retry limit of 2: two injected failures
followed by clean attempts still produce a successful read, and three
failing attempts (indices 0, 1, 2) exhaust the budget, surfacing the
error of attempt 2. -/
theorem c3_witness :
    (∃ fh2 obs2 data,
      ReadFileHandle.Read cfg3W objW 1 2
        (fun i => if i < 2 then failFault i else cleanFault) fh0W obs0W
        = (fh2, obs2, .ok data)) ∧
    (∃ fh2 obs2,
      ReadFileHandle.Read cfg3W objW 1 2 (fun i => failFault i) fh0W obs0W
        = (fh2, obs2, .error (.ioErr 2))) := by
  have h := c3_read_retries cfg3W objW 1 2 (fun i => i) 2 fh0W obs0W (by decide) rfl rfl
  exact ⟨h.1 (by decide), h.2 (by decide)⟩
